import Mathlib

/-!
Verification model of `src/rnd/autogpt_builder/src/components/Flow.tsx`:
the graph-editor core (connection caches, schema-driven input composition,
save/remap cycle, copy/paste, drag-gesture history).

JS values are modelled by a JSON-like inductive `Value`; JS objects used as
string-keyed maps are modelled as association lists together with `setKey`
(assignment: overwrite in place or append) and `lookupS` (property read).
Machine floats for canvas positions are modelled as `Int` coordinates; the
only arithmetic the claims need on them (`Math.sqrt d > 50`) is expressed
through the equivalent squared comparison `d > 2500`.
-/

namespace Flow

/-- JSON-like runtime values (hardcoded field values, payload contents). -/
inductive Value where
  | str : String → Value
  | num : Int → Value
  | boolean : Bool → Value
  | obj : List (String × Value) → Value

mutual

/-- Structural (deep) equality test on JSON-like values. -/
def Value.beq : Value → Value → Bool
  | .str a, .str b => a == b
  | .num a, .num b => a == b
  | .boolean a, .boolean b => a == b
  | .obj a, .obj b => Value.beqFields a b
  | _, _ => false

def Value.beqFields : List (String × Value) → List (String × Value) → Bool
  | [], [] => true
  | (k, v) :: r, (k2, v2) :: r2 => k == k2 && Value.beq v v2 && Value.beqFields r r2
  | _, _ => false

end

instance : BEq Value := ⟨Value.beq⟩

/-- `ObjectSchema` from `@/lib/autogpt-server-api`: a recursive object shape
with a `type` tag, declared `properties`, and an `additionalProperties` flag
(as used by `prepareNodeInputData` and `getOutputType`). -/
inductive Schema where
  | mk (type : String) (properties : List (String × Schema))
       (additionalProperties : Bool)

def Schema.type : Schema → String
  | .mk t _ _ => t

def Schema.properties : Schema → List (String × Schema)
  | .mk _ p _ => p

def Schema.additionalProperties : Schema → Bool
  | .mk _ _ a => a

/-- JS object property read `m[k]`: first binding wins (our `setKey` keeps
keys unique, matching JS objects). -/
def lookupS {α : Type} (m : List (String × α)) (k : String) : Option α :=
  (m.find? (fun p => p.1 == k)).map (fun p => p.2)

/-- JS object property assignment `m[k] = v`: overwrite the existing binding
in place, else append (JS objects keep insertion order). -/
def setKey {α : Type} (m : List (String × α)) (k : String) (v : α) :
    List (String × α) :=
  if (m.find? (fun p => p.1 == k)).isSome then
    m.map (fun p => if p.1 == k then (k, v) else p)
  else m ++ [(k, v)]

/-- One entry of a node's cached `data.connections` list. -/
structure Connection where
  source : String
  sourceHandle : String
  target : String
  targetHandle : String
deriving DecidableEq, Repr

/-- A React Flow edge as used by `Flow.tsx` (`Edge<CustomEdgeData>`); fields
irrelevant to the claims (marker, colors) are omitted. -/
structure EdgeM where
  id : String
  source : String
  sourceHandle : String
  target : String
  targetHandle : String
  selected : Bool := false
deriving DecidableEq, Repr

/-- A React Flow node together with its `CustomNodeData` payload; the
`setHardcodedValues` closure and purely visual fields are omitted.
`outputSchema` is optional because `getOutputType` guards
`if (!outputSchema)`. Positions are `Int × Int`. -/
structure NodeM where
  id : String
  position : Int × Int
  selected : Bool := false
  block_id : String
  title : String
  connections : List Connection := []
  hardcodedValues : List (String × Value) := []
  outputSchema : Option Schema := none
  status : Option String := none
  output_data : Option Value := none
  backend_id : Option String := none

/-- An entry of the block catalog (`availableNodes`). -/
structure Block where
  id : String
  name : String
  inputSchema : Schema
  outputSchema : Schema

/-- A link record of the persisted-graph wire format. -/
structure LinkM where
  source_id : String
  sink_id : String
  source_name : String
  sink_name : String
deriving DecidableEq, BEq, Repr

/-- A node record of the persisted-graph wire format, as assembled by
`saveAgent` (`input_nodes`/`output_nodes` are `(name, node_id)` pairs,
`position` is `metadata.position`). -/
structure FormattedNode where
  id : String
  block_id : String
  input_default : List (String × Value)
  input_nodes : List (String × String)
  output_nodes : List (String × String)
  position : Int × Int
deriving BEq

/-- The payload object `saveAgent` assembles; `id` is `savedAgent?.id!`,
which is absent (`none`) before the first successful save. -/
structure Payload where
  id : Option String
  name : String
  description : String
  nodes : List FormattedNode
  links : List LinkM
deriving BEq

/-- A persisted `Graph` as returned by the remote service. -/
structure Graph where
  id : String
  name : String
  description : String
  nodes : List FormattedNode
  links : List LinkM
  is_template : Bool

/-- The component state of `FlowEditor` relevant to the claims. -/
structure FlowState where
  nodes : List NodeM := []
  edges : List EdgeM := []
  nodeId : Nat := 1
  availableNodes : List Block := []
  savedAgent : Option Graph := none
  agentName : String := ""
  agentDescription : String := ""
  copiedNodes : List NodeM := []
  copiedEdges : List EdgeM := []

/-! ### Connection caches (`updateNodesOnEdgeChange`, `onConnect`) -/

/-- The connection record that `Flow.tsx` stores for an edge. -/
def EdgeM.conn (e : EdgeM) : Connection :=
  ⟨e.source, e.sourceHandle, e.target, e.targetHandle⟩

/-- The predicate of the `remove` filter in `updateNodesOnEdgeChange`:
an entry matches the edge when all four endpoint components agree. -/
def connMatches (e : EdgeM) (c : Connection) : Bool :=
  c.source == e.source && c.target == e.target &&
    c.sourceHandle == e.sourceHandle && c.targetHandle == e.targetHandle

/-- `updateNodesOnEdgeChange(edge, 'add')`: append the edge's connection
record to the cached lists of the edge's source and target nodes. -/
def updateNodesOnEdgeChangeAdd (e : EdgeM) (nodes : List NodeM) : List NodeM :=
  nodes.map (fun n =>
    if n.id == e.source || n.id == e.target then
      { n with connections := n.connections ++ [e.conn] }
    else n)

/-- `updateNodesOnEdgeChange(edge, 'remove')`: drop every matching entry from
the cached lists of the edge's source and target nodes. -/
def updateNodesOnEdgeChangeRemove (e : EdgeM) (nodes : List NodeM) : List NodeM :=
  nodes.map (fun n =>
    if n.id == e.source || n.id == e.target then
      { n with connections := n.connections.filter (fun c => !(connMatches e c)) }
    else n)

/-- The net effect of `onConnect` on the node collection: the handler calls
`updateNodesOnEdgeChange(newEdge, 'add')` from inside its `setEdges` updater,
and additionally queues a second `setNodes` updater that appends the same
connection record to the source and target nodes again; both queued updaters
are applied. -/
def onConnectNodes (e : EdgeM) (nodes : List NodeM) : List NodeM :=
  (updateNodesOnEdgeChangeAdd e nodes).map (fun n =>
    if n.id == e.target || n.id == e.source then
      { n with connections := n.connections ++ [e.conn] }
    else n)

/-- Number of cached entries on node `n` matching edge `e`. -/
def connCount (e : EdgeM) (n : NodeM) : Nat :=
  (n.connections.filter (connMatches e)).length

/-! ### `getOutputType` -/

/-- `getOutputType(id, handleId)`: `'unknown'` when the node is absent or has
no output schema; otherwise the raw property access
`outputSchema.properties[handleId].type`, which throws a `TypeError`
(modelled as `none`) when `handleId` is not a declared property. -/
def getOutputType (nodes : List NodeM) (id handleId : String) :
    Option String :=
  match nodes.find? (fun n => n.id == id) with
  | none => some "unknown"
  | some node =>
    match node.outputSchema with
    | none => some "unknown"
    | some os => (lookupS os.properties handleId).map Schema.type

/-! ### Schema-driven input composition (`prepareNodeInputData`) -/

/-- Reading a JS value as an object map: an object yields its fields; any
other value yields no own enumerable string-keyed properties for the
`Object.keys` walk and the object spread used by `getNestedData`. -/
def Value.asMap : Value → List (String × Value)
  | .obj m => m
  | _ => []

/-- The spread merge `{ ...inputData, ...values }`: every binding of `values`
is written over `base`, later bindings last. -/
def mergeVals (base values : List (String × Value)) : List (String × Value) :=
  values.foldl (fun acc p => setKey acc p.1 p.2) base

mutual

/-- `getNestedData(schema, values)` from `prepareNodeInputData`: walk the
declared properties in order, copying each value present in `values`
(recursing when the property's declared type is `'object'`), then, if the
schema allows additional properties, spread the entire raw value map over
the result. -/
def getNestedData : Schema → List (String × Value) → List (String × Value)
  | .mk _ props ap, values =>
    let base := goProps [] props values
    if ap then mergeVals base values else base

/-- The `Object.keys(schema.properties).forEach` loop of `getNestedData`,
with `acc` the `inputData` object built so far. -/
def goProps : List (String × Value) → List (String × Schema) →
    List (String × Value) → List (String × Value)
  | acc, [], _ => acc
  | acc, (k, ps) :: rest, values =>
    match lookupS values k with
    | none => goProps acc rest values
    | some v =>
      goProps
        (setKey acc k
          (if ps.type == "object" then Value.obj (getNestedData ps v.asMap)
           else v))
        rest values

end

/-- `prepareNodeInputData(node, ...)`: look the node's block up in the
catalog; a missing input schema yields the empty payload `{}`, otherwise
compose the hardcoded values through the schema. -/
def prepareNodeInputData (availableNodes : List Block) (node : NodeM) :
    List (String × Value) :=
  match (availableNodes.find? (fun b => b.id == node.block_id)).map
      Block.inputSchema with
  | none => []
  | some blockSchema => getNestedData blockSchema node.hardcodedValues

/-! ### Saving (`saveAgent`) -/

/-- The composite key `` `${block_id}_${position.x}_${position.y}` `` of a
frontend node, recorded in `blockIdToNodeIdMap` before the remote call. -/
def nodeKey (n : NodeM) : String :=
  n.block_id ++ "_" ++ toString n.position.1 ++ "_" ++ toString n.position.2

/-- The same composite key computed from a response (backend) node. -/
def backendKey (b : FormattedNode) : String :=
  b.block_id ++ "_" ++ toString b.position.1 ++ "_" ++ toString b.position.2

/-- `blockIdToNodeIdMap`: key each node of the pre-call node list to its
frontend identifier (later nodes overwrite earlier ones on key collision,
as JS object assignment does). -/
def buildMap (nodes : List NodeM) : List (String × String) :=
  nodes.foldl (fun m n => setKey m (nodeKey n) n.id) []

/-- One element of `formattedNodes`: the wire-format record `saveAgent`
assembles for a node, with edge stubs scanned from the current edge set. -/
def formatNode (availableNodes : List Block) (edges : List EdgeM)
    (node : NodeM) : FormattedNode :=
  { id := node.id
    block_id := node.block_id
    input_default := prepareNodeInputData availableNodes node
    input_nodes := (edges.filter (fun e => e.target == node.id)).map
      (fun e => (e.targetHandle, e.source))
    output_nodes := (edges.filter (fun e => e.source == node.id)).map
      (fun e => (e.sourceHandle, e.target))
    position := node.position }

/-- The payload `saveAgent` assembles from the captured component state. -/
def buildPayload (st : FlowState) : Payload :=
  { id := st.savedAgent.map Graph.id
    name := if st.agentName == "" then "Agent Name" else st.agentName
    description :=
      if st.agentDescription == "" then "Agent Description"
      else st.agentDescription
    nodes := st.nodes.map (formatNode st.availableNodes st.edges)
    links := st.edges.map (fun e =>
      { source_id := e.source, sink_id := e.target,
        source_name := e.sourceHandle, sink_name := e.targetHandle }) }

/-- Modelled from the spec: `deepEquals` from `@/lib/utils` is not under
`src/`; the spec states the freshly assembled record is compared against the
last-synced copy by deep structural equality. We compare the payload against
the payload-shaped projection of the saved graph (its shared fields),
which is the reading most favourable to the skip behaviour. -/
def deepEquals (p : Payload) (g : Graph) : Bool :=
  p == ⟨some g.id, g.name, g.description, g.nodes, g.links⟩

/-- The identifier-remap step after a successful save: for every backend
node of the response, look its composite key up in `blockIdToNodeIdMap`,
find the frontend node with that identifier, and keep it with the backend
position and the service-assigned identifier recorded in `backend_id`;
backend nodes resolving to no frontend node contribute nothing (`null`
entries are filtered out). -/
def saveRemap (nodes : List NodeM) (backendNodes : List FormattedNode) :
    List NodeM :=
  backendNodes.filterMap (fun b =>
    match lookupS (buildMap nodes) (backendKey b) with
    | none => none
    | some fid =>
      (nodes.find? (fun n => n.id == fid)).map (fun fn =>
        { fn with position := b.position, backend_id := some b.id }))

/-- `saveAgent(asTemplate)`, with the remote service abstracted as a
deterministic oracle `api : Payload → Graph` covering the four
create/update endpoints. Returns the new state, the number of remote calls
made, and the handler's return value. The payload and the remap read the
node list captured at call time (the stale render closure `nodes`); the
skip branch is `if (savedAgent && deepEquals(payload, savedAgent)) return;`
— it makes no call and returns `undefined` (`none`). -/
def saveAgent (api : Payload → Graph) (st : FlowState) :
    FlowState × Nat × Option String :=
  let payload := buildPayload st
  match st.savedAgent with
  | some g =>
    if deepEquals payload g then
      ({ st with nodes := st.nodes.map (fun n => { n with status := none }) },
        0, none)
    else
      let resp := api payload
      ({ st with savedAgent := some resp,
                 nodes := saveRemap st.nodes resp.nodes },
        1, some resp.id)
  | none =>
    let resp := api payload
    ({ st with savedAgent := some resp,
               nodes := saveRemap st.nodes resp.nodes },
      1, some resp.id)

/-- The save is not skipped: either no prior saved graph exists (create) or
the assembled payload differs from the last-synced copy. -/
def noSkip (st : FlowState) : Prop :=
  st.savedAgent = none ∨
    ∃ g, st.savedAgent = some g ∧ deepEquals (buildPayload st) g = false

/-! ### Copy and paste (`handleKeyDown`) -/

/-- Ctrl/Cmd+C: snapshot the selected nodes and edges into the clipboard. -/
def copyOp (st : FlowState) : FlowState :=
  { st with copiedNodes := st.nodes.filter (fun n => n.selected),
            copiedEdges := st.edges.filter (fun e => e.selected) }

/-- The new node records paste materializes: identifier `nodeId + index`
rendered in decimal, position offset by `(20, 20)`, status and output data
reset; every other field (including `selected` and `title`) is carried over
from the clipboard copy. -/
def pasteNewNodes (st : FlowState) : List NodeM :=
  (List.range st.copiedNodes.length).zip st.copiedNodes |>.map
    (fun p =>
      { p.2 with id := Nat.repr (st.nodeId + p.1),
                 position := (p.2.position.1 + 20, p.2.position.2 + 20),
                 status := none, output_data := none })

/-- The pasted edges: each copied edge's endpoints are re-homed to the
pasted node whose `data.title` equals the endpoint's node *identifier*
(`n.data.title === edge.source`), falling back to the original identifier
when no pasted node matches; `now` stands for the `Date.now()` suffix of
the new edge id. -/
def remapEdges (copiedEdges : List EdgeM) (newNodes : List NodeM)
    (now : String) : List EdgeM :=
  copiedEdges.map (fun e =>
    let newSourceId :=
      ((newNodes.find? (fun n => n.title == e.source)).map NodeM.id).getD
        e.source
    let newTargetId :=
      ((newNodes.find? (fun n => n.title == e.target)).map NodeM.id).getD
        e.target
    { e with
      id := newSourceId ++ "_" ++ e.sourceHandle ++ "_" ++ newTargetId ++
        "_" ++ e.targetHandle ++ "_" ++ now,
      source := newSourceId, target := newTargetId })

/-- Ctrl/Cmd+V: if the clipboard holds nodes, append the pasted copies after
deselecting every pre-existing node, advance the identifier counter by the
clipboard size, and append the re-homed pasted edges. -/
def pasteOp (now : String) (st : FlowState) : FlowState :=
  if st.copiedNodes.isEmpty then st
  else
    let newNodes := pasteNewNodes st
    { st with
      nodes := st.nodes.map (fun n => { n with selected := false }) ++
        newNodes,
      nodeId := st.nodeId + st.copiedNodes.length,
      edges := st.edges ++ remapEdges st.copiedEdges newNodes now }

/-! ### Drag-gesture history (`onNodesChangeStart/End`, `onNodesChange`) -/

/-- An `UPDATE_NODE_POSITION` history record (type tag plus payload). -/
structure HCommand where
  typ : String
  nodeId : String
  oldPosition : Int × Int
  newPosition : Int × Int
deriving DecidableEq, Repr

/-- `Math.sqrt(dx^2 + dy^2) > MINIMUM_MOVE_BEFORE_LOG` with
`MINIMUM_MOVE_BEFORE_LOG = 50`, stated as the equivalent squared
comparison `dx^2 + dy^2 > 2500`. -/
def distanceExceedsMin (p q : Int × Int) : Bool :=
  (q.1 - p.1) ^ 2 + (q.2 - p.2) ^ 2 > 2500

/-- The mutable pieces the drag lifecycle touches: the history log, the
`initialPositionRef` map, and the `isDragging` flag. -/
structure DragState where
  log : List HCommand := []
  initialPositions : List (String × (Int × Int)) := []
  isDragging : Bool := false

/-- `onNodesChangeStart`: record the node's position and raise the flag. -/
def onNodesChangeStart (st : DragState) (id : String) (pos : Int × Int) :
    DragState :=
  { st with initialPositions := setKey st.initialPositions id pos,
            isDragging := true }

/-- The `position` branch of `onNodesChange` for one change event: skipped
entirely while `isDragging.current` is set; otherwise (the programmatic
fallback path) it threshold-checks against the recorded position, or the
node's current position when none is recorded. -/
def onNodesChangePosition (nodes : List NodeM) (st : DragState)
    (id : String) (newPos : Int × Int) : DragState :=
  if st.isDragging then st
  else
    match nodes.find? (fun n => n.id == id) with
    | none => st
    | some movedNode =>
      let oldPosition := (lookupS st.initialPositions id).getD
        movedNode.position
      if distanceExceedsMin oldPosition newPos then
        { st with
          log := st.log ++ [⟨"UPDATE_NODE_POSITION", id, oldPosition, newPos⟩],
          initialPositions := setKey st.initialPositions id newPos }
      else st

/-- `onNodesChangeEnd`: clear the flag, read the recorded start position
(returning if none), push one `UPDATE_NODE_POSITION` command when the
displacement exceeds the threshold, and delete the recorded position. -/
def onNodesChangeEnd (st : DragState) (id : String) (pos : Int × Int) :
    DragState :=
  let st1 : DragState := { st with isDragging := false }
  match lookupS st1.initialPositions id with
  | none => st1
  | some oldPosition =>
    let st2 :=
      if distanceExceedsMin oldPosition pos then
        { st1 with
          log := st1.log ++ [⟨"UPDATE_NODE_POSITION", id, oldPosition, pos⟩] }
      else st1
    { st2 with
      initialPositions := st2.initialPositions.filter (fun p => p.1 != id) }

/-- A whole drag gesture: drag start at `startPos`, a stream of intermediate
position change events, and drag stop at `endPos`. -/
def dragGesture (nodes : List NodeM) (st : DragState) (id : String)
    (startPos : Int × Int) (mids : List (Int × Int)) (endPos : Int × Int) :
    DragState :=
  onNodesChangeEnd
    (mids.foldl (fun s p => onNodesChangePosition nodes s id p)
      (onNodesChangeStart st id startPos))
    id endPos

/-! ### Decimal rendering helper

`Node` identifiers are allocated as `nodeId.toString()`; freshness of pasted
identifiers needs injectivity of the decimal rendering `Nat.repr`, which we
derive from a digit-list evaluator. -/

/-- Evaluate a most-significant-first list of decimal digit characters. -/
def digitsVal (l : List Char) : Nat :=
  l.foldl (fun a c => a * 10 + (c.toNat - 48)) 0

end Flow

/-! ## Lemmas about the map primitives -/

namespace Flow

theorem find?_overwrite {α : Type} (m : List (String × α)) (k : String)
    (v : α) :
    (m.map (fun p => if p.1 == k then (k, v) else p)).find?
        (fun p => p.1 == k) =
      if (m.find? (fun p => p.1 == k)).isSome then some (k, v) else none := by
  induction m with
  | nil => rfl
  | cons hd tl ih =>
    by_cases hk : hd.1 = k
    · simp [hk]
    · have hk' : (hd.1 == k) = false := beq_false_of_ne hk
      simp only [List.map_cons, hk', if_false]
      rw [List.find?_cons_of_neg _ (by simp [hk]),
        List.find?_cons_of_neg _ (by simp [hk])]
      exact ih

theorem find?_overwrite_ne {α : Type} (m : List (String × α)) (k k' : String)
    (v : α) (h : k' ≠ k) :
    (m.map (fun p => if p.1 == k then (k, v) else p)).find?
        (fun p => p.1 == k') =
      m.find? (fun p => p.1 == k') := by
  induction m with
  | nil => rfl
  | cons hd tl ih =>
    by_cases hk : hd.1 = k
    · have hrepl : (if (hd.1 == k) = true then (k, v) else hd) = (k, v) := by
        simp [hk]
      simp only [List.map_cons, hrepl]
      rw [List.find?_cons_of_neg _ (by simp [Ne.symm h]),
        List.find?_cons_of_neg _ (by simp [hk, Ne.symm h])]
      exact ih
    · have hk' : (hd.1 == k) = false := beq_false_of_ne hk
      simp only [List.map_cons, hk', Bool.false_eq_true, if_false]
      by_cases hm : hd.1 = k'
      · rw [List.find?_cons_of_pos _ (by simp [hm]),
          List.find?_cons_of_pos _ (by simp [hm])]
      · rw [List.find?_cons_of_neg _ (by simp [hm]),
          List.find?_cons_of_neg _ (by simp [hm])]
        exact ih

theorem lookupS_setKey_self {α : Type} (m : List (String × α)) (k : String)
    (v : α) : lookupS (setKey m k v) k = some v := by
  unfold setKey lookupS
  by_cases h : (m.find? (fun p => p.1 == k)).isSome
  · rw [if_pos h, find?_overwrite]
    rw [if_pos h]
    rfl
  · have hnone : m.find? (fun p => p.1 == k) = none :=
      Option.not_isSome_iff_eq_none.mp h
    rw [if_neg h, List.find?_append, hnone]
    simp

theorem lookupS_setKey_ne {α : Type} (m : List (String × α)) (k k' : String)
    (v : α) (h : k' ≠ k) : lookupS (setKey m k v) k' = lookupS m k' := by
  unfold setKey lookupS
  by_cases hs : (m.find? (fun p => p.1 == k)).isSome
  · rw [if_pos hs, find?_overwrite_ne m k k' v h]
  · rw [if_neg hs, List.find?_append]
    have hone : ([((k : String), v)].find? (fun p => p.1 == k')) = none := by
      simp [beq_false_of_ne (Ne.symm h)]
    rw [hone]
    cases m.find? (fun p => p.1 == k') <;> rfl

theorem lookupS_foldl_setKey_notmem {α β : Type} (f : β → String) (g : β → α)
    (l : List β) (m : List (String × α)) (k : String) (hk : k ∉ l.map f) :
    lookupS (l.foldl (fun acc b => setKey acc (f b) (g b)) m) k =
      lookupS m k := by
  induction l generalizing m with
  | nil => rfl
  | cons hd tl ih =>
    simp only [List.map_cons, List.mem_cons, not_or] at hk
    simp only [List.foldl_cons]
    rw [ih _ hk.2, lookupS_setKey_ne _ _ _ _ hk.1]

theorem lookupS_foldl_setKey_mem {α β : Type} (f : β → String) (g : β → α)
    (l : List β) (hnd : (l.map f).Nodup) (b : β) (hb : b ∈ l)
    (m : List (String × α)) :
    lookupS (l.foldl (fun acc x => setKey acc (f x) (g x)) m) (f b) =
      some (g b) := by
  induction l generalizing m with
  | nil => cases hb
  | cons hd tl ih =>
    simp only [List.map_cons, List.nodup_cons] at hnd
    simp only [List.foldl_cons]
    rcases List.mem_cons.mp hb with hbh | hbt
    · subst hbh
      rw [lookupS_foldl_setKey_notmem f g tl _ _ hnd.1,
        lookupS_setKey_self]
    · exact ih hnd.2 hbt _

theorem lookupS_foldl_setKey_some {α β : Type} (f : β → String) (g : β → α)
    (l : List β) (m : List (String × α)) (k : String) (v : α)
    (h : lookupS (l.foldl (fun acc x => setKey acc (f x) (g x)) m) k =
      some v) :
    (∃ b ∈ l, f b = k ∧ g b = v) ∨ lookupS m k = some v := by
  induction l generalizing m with
  | nil => exact Or.inr h
  | cons hd tl ih =>
    simp only [List.foldl_cons] at h
    rcases ih _ h with ⟨b, hbl, hbk, hbv⟩ | hm
    · exact Or.inl ⟨b, List.mem_cons_of_mem _ hbl, hbk, hbv⟩
    · by_cases hkh : k = f hd
      · subst hkh
        rw [lookupS_setKey_self] at hm
        exact Or.inl ⟨hd, List.mem_cons_self _ _, rfl, (Option.some_inj.mp hm)⟩
      · rw [lookupS_setKey_ne _ _ _ _ hkh] at hm
        exact Or.inr hm

theorem lookupS_buildMap_mem (nodes : List NodeM)
    (hnd : (nodes.map nodeKey).Nodup) (n : NodeM) (hn : n ∈ nodes) :
    lookupS (buildMap nodes) (nodeKey n) = some n.id :=
  lookupS_foldl_setKey_mem nodeKey NodeM.id nodes hnd n hn []

theorem lookupS_buildMap_some (nodes : List NodeM) (k v : String)
    (h : lookupS (buildMap nodes) k = some v) :
    ∃ nd ∈ nodes, nodeKey nd = k ∧ nd.id = v := by
  rcases lookupS_foldl_setKey_some nodeKey NodeM.id nodes [] k v h with
    hex | hbase
  · exact hex
  · cases hbase

theorem lookupS_mergeVals_mem (base values : List (String × Value))
    (hnd : (values.map Prod.fst).Nodup) (k : String) (v : Value)
    (hv : (k, v) ∈ values) :
    lookupS (mergeVals base values) k = some v :=
  lookupS_foldl_setKey_mem Prod.fst Prod.snd values hnd (k, v) hv base

theorem lookupS_mergeVals_notmem (base values : List (String × Value))
    (k : String) (hk : k ∉ values.map Prod.fst) :
    lookupS (mergeVals base values) k = lookupS base k :=
  lookupS_foldl_setKey_notmem Prod.fst Prod.snd values base k hk

/-! ## Lemmas about the declared-property walk -/

theorem goProps_lookup_notmem (props : List (String × Schema))
    (values acc : List (String × Value)) (k : String)
    (hk : k ∉ props.map Prod.fst) :
    lookupS (goProps acc props values) k = lookupS acc k := by
  induction props generalizing acc with
  | nil => rfl
  | cons hd tl ih =>
    rcases hd with ⟨k', ps⟩
    simp only [List.map_cons, List.mem_cons, not_or] at hk
    cases hv : lookupS values k' with
    | none =>
      rw [goProps, hv]
      exact ih _ hk.2
    | some v =>
      rw [goProps, hv]
      rw [ih _ hk.2, lookupS_setKey_ne _ _ _ _ hk.1]

theorem goProps_lookup_mem (props : List (String × Schema))
    (hnd : (props.map Prod.fst).Nodup) (k : String) (ps : Schema)
    (hp : (k, ps) ∈ props) (values : List (String × Value)) (v : Value)
    (hv : lookupS values k = some v) (acc : List (String × Value)) :
    lookupS (goProps acc props values) k =
      some (if ps.type == "object" then Value.obj (getNestedData ps v.asMap)
            else v) := by
  induction props generalizing acc with
  | nil => cases hp
  | cons hd tl ih =>
    rcases hd with ⟨k', ps'⟩
    simp only [List.map_cons, List.nodup_cons] at hnd
    rcases List.mem_cons.mp hp with hph | hpt
    · rcases Prod.mk.injEq .. ▸ hph with ⟨hk, hps⟩
      subst hk
      subst hps
      rw [goProps, hv, goProps_lookup_notmem _ _ _ _ hnd.1,
        lookupS_setKey_self]
    · have hne : k ≠ k' := by
        intro he
        subst he
        exact hnd.1 (List.mem_map_of_mem Prod.fst hpt)
      cases hv' : lookupS values k' with
      | none =>
        rw [goProps, hv']
        exact ih hnd.2 hpt _
      | some v' =>
        rw [goProps, hv']
        exact ih hnd.2 hpt _

/-! ## Finding nodes by identifier -/

theorem find?_id_self (nodes : List NodeM)
    (hnd : (nodes.map NodeM.id).Nodup) (n : NodeM) (hn : n ∈ nodes) :
    nodes.find? (fun x => x.id == n.id) = some n := by
  induction nodes with
  | nil => cases hn
  | cons hd tl ih =>
    simp only [List.map_cons, List.nodup_cons] at hnd
    rcases List.mem_cons.mp hn with h | h
    · subst h
      rw [List.find?_cons_of_pos _ (by simp)]
    · have hne : ¬(hd.id = n.id) := by
        intro he
        exact hnd.1 (he ▸ List.mem_map_of_mem NodeM.id h)
      rw [List.find?_cons_of_neg _ (by simp [hne])]
      exact ih hnd.2 h

/-! ## Injectivity of the decimal identifier rendering -/

theorem toDigitsCore_shift (fuel n : Nat) (ds : List Char) :
    Nat.toDigitsCore 10 fuel n ds = Nat.toDigitsCore 10 fuel n [] ++ ds := by
  induction fuel generalizing n ds with
  | zero => rfl
  | succ f ih =>
    simp only [Nat.toDigitsCore]
    by_cases h : n / 10 = 0
    · simp [h]
    · rw [if_neg h, if_neg h, ih (n / 10) (Nat.digitChar (n % 10) :: ds),
        ih (n / 10) [Nat.digitChar (n % 10)]]
      simp

theorem digitsVal_append (l : List Char) (c : Char) :
    digitsVal (l ++ [c]) = digitsVal l * 10 + (c.toNat - 48) := by
  unfold digitsVal
  rw [List.foldl_append]
  rfl

theorem digitChar_val (d : Nat) (h : d < 10) :
    (Nat.digitChar d).toNat - 48 = d := by
  interval_cases d <;> rfl

theorem toDigitsCore_val (fuel n : Nat) (h : n < fuel) :
    digitsVal (Nat.toDigitsCore 10 fuel n []) = n := by
  induction fuel generalizing n with
  | zero => omega
  | succ f ih =>
    simp only [Nat.toDigitsCore]
    by_cases h0 : n / 10 = 0
    · rw [if_pos h0]
      show digitsVal [Nat.digitChar (n % 10)] = n
      have hval : (Nat.digitChar (n % 10)).toNat - 48 = n % 10 :=
        digitChar_val (n % 10) (Nat.mod_lt _ (by norm_num))
      show 0 * 10 + ((Nat.digitChar (n % 10)).toNat - 48) = n
      rw [hval]
      omega
    · rw [if_neg h0, toDigitsCore_shift, digitsVal_append,
        ih (n / 10) (by omega),
        digitChar_val (n % 10) (Nat.mod_lt _ (by norm_num))]
      omega

theorem natRepr_injective : Function.Injective Nat.repr := by
  intro a b h
  have h' : Nat.toDigits 10 a = Nat.toDigits 10 b := by
    have hd := congrArg String.data h
    simpa [Nat.repr, List.asString] using hd
  have ha := toDigitsCore_val (a + 1) a (Nat.lt_succ_self a)
  have hb := toDigitsCore_val (b + 1) b (Nat.lt_succ_self b)
  unfold Nat.toDigits at h'
  rw [← ha, ← hb, h']

/-! ## Drag lifecycle lemmas -/

theorem onNodesChangePosition_dragging (nodes : List NodeM) (st : DragState)
    (hd : st.isDragging = true) (id : String) (p : Int × Int) :
    onNodesChangePosition nodes st id p = st := by
  unfold onNodesChangePosition
  rw [if_pos hd]

theorem foldl_position_dragging (nodes : List NodeM) (st : DragState)
    (hd : st.isDragging = true) (id : String) (mids : List (Int × Int)) :
    mids.foldl (fun s p => onNodesChangePosition nodes s id p) st = st := by
  induction mids with
  | nil => rfl
  | cons hdm tl ih =>
    rw [List.foldl_cons, onNodesChangePosition_dragging nodes st hd, ih]

theorem dragGesture_log (nodes : List NodeM) (st : DragState) (id : String)
    (startPos : Int × Int) (mids : List (Int × Int)) (endPos : Int × Int) :
    (dragGesture nodes st id startPos mids endPos).log =
      st.log ++
        (if distanceExceedsMin startPos endPos then
          [⟨"UPDATE_NODE_POSITION", id, startPos, endPos⟩] else []) := by
  unfold dragGesture
  rw [foldl_position_dragging nodes (onNodesChangeStart st id startPos) rfl]
  unfold onNodesChangeEnd onNodesChangeStart
  simp only
  rw [lookupS_setKey_self]
  by_cases h : distanceExceedsMin startPos endPos = true
  · simp [h]
  · simp [h]

/-! ## Paste lemmas -/

theorem map_fst_apply_zip {α β γ : Type} (f : α → γ) (a : List α)
    (b : List β) (h : a.length ≤ b.length) :
    (a.zip b).map (fun p => f p.1) = a.map f := by
  have hcomp : (fun p : α × β => f p.1) = f ∘ Prod.fst := rfl
  rw [hcomp, ← List.map_map, List.map_fst_zip _ _ h]

theorem pasteNewNodes_length (st : FlowState) :
    (pasteNewNodes st).length = st.copiedNodes.length := by
  unfold pasteNewNodes
  simp

theorem pasteNewNodes_ids (st : FlowState) :
    (pasteNewNodes st).map NodeM.id =
      (List.range st.copiedNodes.length).map
        (fun i => Nat.repr (st.nodeId + i)) := by
  unfold pasteNewNodes
  rw [List.map_map]
  exact map_fst_apply_zip (fun i => Nat.repr (st.nodeId + i)) _ _ (by simp)

theorem pasteNewNodes_get (st : FlowState) (i : Nat)
    (h : i < (pasteNewNodes st).length)
    (h2 : i < st.copiedNodes.length) :
    (pasteNewNodes st).get ⟨i, h⟩ =
      { st.copiedNodes.get ⟨i, h2⟩ with
        id := Nat.repr (st.nodeId + i),
        position := ((st.copiedNodes.get ⟨i, h2⟩).position.1 + 20,
          (st.copiedNodes.get ⟨i, h2⟩).position.2 + 20),
        status := none, output_data := none } := by
  unfold pasteNewNodes
  simp [List.getElem_zip]

/-! ## Save/remap lemmas -/

theorem saveAgent_nodes_of_noSkip (api : Payload → Graph) (st : FlowState)
    (hns : noSkip st) :
    (saveAgent api st).1.nodes =
      saveRemap st.nodes (api (buildPayload st)).nodes ∧
    (saveAgent api st).2.1 = 1 ∧
    (saveAgent api st).2.2 = some (api (buildPayload st)).id := by
  rcases hns with hnone | ⟨g, hg, hne⟩
  · unfold saveAgent
    rw [hnone]
    exact ⟨rfl, rfl, rfl⟩
  · unfold saveAgent
    rw [hg]
    simp only [hne, Bool.false_eq_true, if_false]
    exact ⟨trivial, trivial, trivial⟩

theorem saveRemap_mem (nodes : List NodeM) (resp : List FormattedNode)
    (hkeys : (nodes.map nodeKey).Nodup) (hids : (nodes.map NodeM.id).Nodup)
    (n : NodeM) (hn : n ∈ nodes) (b : FormattedNode) (hb : b ∈ resp)
    (hkey : backendKey b = nodeKey n) :
    { n with position := b.position, backend_id := some b.id } ∈
      saveRemap nodes resp := by
  unfold saveRemap
  apply List.mem_filterMap.mpr
  refine ⟨b, hb, ?_⟩
  rw [hkey, lookupS_buildMap_mem nodes hkeys n hn]
  simp only
  rw [find?_id_self nodes hids n hn]
  rfl

theorem saveRemap_src (nodes : List NodeM) (resp : List FormattedNode)
    (hids : (nodes.map NodeM.id).Nodup) (n' : NodeM)
    (h : n' ∈ saveRemap nodes resp) :
    ∃ n ∈ nodes, n'.id = n.id ∧ ∃ b ∈ resp, backendKey b = nodeKey n ∧
      n' = { n with position := b.position, backend_id := some b.id } := by
  unfold saveRemap at h
  rcases List.mem_filterMap.mp h with ⟨b, hb, hfb⟩
  rcases hlk : lookupS (buildMap nodes) (backendKey b) with _ | fid
  · rw [hlk] at hfb
    cases hfb
  · rw [hlk] at hfb
    simp only [Option.map_eq_some'] at hfb
    rcases hfb with ⟨fn, hfind, hfn⟩
    rcases lookupS_buildMap_some nodes _ _ hlk with ⟨m, hm, hmkey, hmid⟩
    have hfnmem : fn ∈ nodes := List.mem_of_find?_eq_some hfind
    have hfnid : fn.id = fid := by
      have := List.find?_some hfind
      exact beq_iff_eq.mp this
    have hmfn : m = fn :=
      List.inj_on_of_nodup_map hids hm hfnmem (by rw [hmid, hfnid])
    refine ⟨fn, hfnmem, ?_, b, hb, ?_, hfn.symm⟩
    · rw [← hfn]
    · rw [← hmfn, hmkey]

theorem pasteNewNodes_mem_shape (st : FlowState) (p : NodeM)
    (hp : p ∈ pasteNewNodes st) :
    ∃ i c, i < st.copiedNodes.length ∧ c ∈ st.copiedNodes ∧
      p = { c with
            id := Nat.repr (st.nodeId + i),
            position := (c.position.1 + 20, c.position.2 + 20),
            status := none, output_data := none } := by
  unfold pasteNewNodes at hp
  rcases List.mem_map.mp hp with ⟨pr, hpr, hval⟩
  have hmem := List.of_mem_zip hpr
  exact ⟨pr.1, pr.2, List.mem_range.mp hmem.1, hmem.2, hval.symm⟩

/-! ## Claim theorems -/

/-- C1: the claim states that adding a single edge leaves exactly one
matching connection entry on each of its two endpoint nodes. On a concrete
two-node graph with empty caches, `onConnect` leaves **two** matching
entries on each endpoint — one appended by `updateNodesOnEdgeChange(newEdge,
'add')` from inside the `setEdges` updater, and a second appended by the
handler's own `setNodes` updater — so the exactly-once invariant is already
violated after a single edge addition. -/
theorem C1_onConnect_adds_connection_twice :
    ((onConnectNodes
        { id := "1_a_2_b", source := "1", sourceHandle := "a",
          target := "2", targetHandle := "b" }
        [{ id := "1", position := (0, 0), block_id := "x", title := "X 1" },
         { id := "2", position := (0, 0), block_id := "y", title := "Y 2" }]).map
      (connCount
        { id := "1_a_2_b", source := "1", sourceHandle := "a",
          target := "2", targetHandle := "b" }) = [2, 2]) ∧ (2 : Nat) ≠ 1 :=
  ⟨rfl, by decide⟩

/-- C2: the claim states that a save whose assembled payload deep-equals the
last-synced copy returns the previously obtained identifier, and that the
second of two back-to-back saves still returns it. With the service echoing
the payload back (so the second payload is deep-equal), the first save makes
one remote call and returns `some "g1"`, while the second save makes no
remote call but returns `none` — the skip branch is a bare `return;` — so
the second save does *not* return the prior identifier (and `runAgent`
consequently treats it as a failed save). -/
theorem C2_skipped_save_returns_no_identifier :
    let api : Payload → Graph := fun p =>
      { id := "g1", name := p.name, description := p.description,
        nodes := p.nodes, links := p.links, is_template := false }
    let first := saveAgent api {}
    let second := saveAgent api first.1
    first.2.1 = 1 ∧ first.2.2 = some "g1" ∧
      second.2.1 = 0 ∧ second.2.2 = none ∧ second.2.2 ≠ some "g1" :=
  ⟨rfl, rfl, rfl, rfl, by decide⟩

/-- C5 (counterexample): the claim states the output-type lookup reports
`"unknown"` when the handle name is absent from the output schema's declared
properties. On a node whose schema declares only `"out"`, looking up the
handle `"missing"` evaluates `outputSchema.properties[handleId].type` on an
`undefined` property and throws (modelled as `none`) instead of returning
`"unknown"`. -/
theorem C5_counterexample_missing_handle_errors :
    getOutputType
      [{ id := "1", position := (0, 0), block_id := "b", title := "t",
         outputSchema :=
           some (.mk "object" [("out", .mk "string" [] false)] false) }]
      "1" "missing" = none ∧ (none : Option String) ≠ some "unknown" :=
  ⟨rfl, by decide⟩

/-- C5 (amended): the lookup returns `"unknown"` when the node does not
exist or its output schema is absent, and returns the declared type when the
handle is declared; but when the handle name is absent from a present output
schema's declared properties the lookup errors (undefined property access)
rather than reporting `"unknown"`. -/
theorem C5_amended_unknown_only_for_missing_node_or_schema
    (nodes : List NodeM) (id handleId : String) :
    (nodes.find? (fun n => n.id == id) = none →
      getOutputType nodes id handleId = some "unknown") ∧
    (∀ node, nodes.find? (fun n => n.id == id) = some node →
      node.outputSchema = none →
      getOutputType nodes id handleId = some "unknown") ∧
    (∀ node os, nodes.find? (fun n => n.id == id) = some node →
      node.outputSchema = some os → lookupS os.properties handleId = none →
      getOutputType nodes id handleId = none) ∧
    (∀ node os ps, nodes.find? (fun n => n.id == id) = some node →
      node.outputSchema = some os →
      lookupS os.properties handleId = some ps →
      getOutputType nodes id handleId = some ps.type) := by
  refine ⟨?_, ?_, ?_, ?_⟩
  · intro h
    simp only [getOutputType, h]
  · intro node h1 h2
    simp only [getOutputType, h1, h2]
  · intro node os h1 h2 h3
    simp only [getOutputType, h1, h2, h3, Option.map_none']
  · intro node os ps h1 h2 h3
    simp only [getOutputType, h1, h2, h3, Option.map_some']

/-- C5 (witness): the amended theorem applied at a graph with no nodes. -/
theorem C5_witness : getOutputType [] "1" "h" = some "unknown" :=
  (C5_amended_unknown_only_for_missing_node_or_schema [] "1" "h").1 rfl

/-- C8: for every drag gesture, exactly one `UPDATE_NODE_POSITION` command
is appended to the history when the displacement from start to end exceeds
the 50-unit threshold (`dx² + dy² > 2500`), and none otherwise; in
particular a 10-unit drag logs nothing and a 100-unit drag logs exactly one
command. -/
theorem C8_drag_threshold :
    (∀ (nodes : List NodeM) (st : DragState) (id : String)
      (startPos : Int × Int) (mids : List (Int × Int)) (endPos : Int × Int),
      (dragGesture nodes st id startPos mids endPos).log =
        st.log ++
          (if distanceExceedsMin startPos endPos then
            [⟨"UPDATE_NODE_POSITION", id, startPos, endPos⟩] else [])) ∧
    (dragGesture [] {} "n1" (0, 0) [] (10, 0)).log = [] ∧
    (dragGesture [] {} "n1" (0, 0) [] (100, 0)).log =
      [⟨"UPDATE_NODE_POSITION", "n1", (0, 0), (100, 0)⟩] :=
  ⟨dragGesture_log, rfl, rfl⟩

/-- C9: a node whose block identifier has no schema in the block catalog
composes to the empty payload instead of an error, and the save still
produces a wire-format record for that node (with empty `input_default`). -/
theorem C9_missing_schema_nonfatal (st : FlowState) (node : NodeM)
    (hn : node ∈ st.nodes)
    (h : ∀ b ∈ st.availableNodes, b.id ≠ node.block_id) :
    prepareNodeInputData st.availableNodes node = [] ∧
    ∃ fn ∈ (buildPayload st).nodes, fn.id = node.id ∧
      fn.input_default = [] := by
  have hfind :
      st.availableNodes.find? (fun b => b.id == node.block_id) = none :=
    List.find?_eq_none.mpr (fun b hb => by simp [h b hb])
  have hprep : prepareNodeInputData st.availableNodes node = [] := by
    unfold prepareNodeInputData
    rw [hfind]
    rfl
  exact ⟨hprep,
    formatNode st.availableNodes st.edges node,
    List.mem_map_of_mem _ hn, rfl, hprep⟩

/-- C9 (witness): the theorem applied with an empty block catalog. -/
theorem C9_witness :
    prepareNodeInputData []
      { id := "1", position := (0, 0), block_id := "b", title := "t" } = [] ∧
    ∃ fn ∈
      (buildPayload
        { nodes :=
            [{ id := "1", position := (0, 0), block_id := "b",
               title := "t" }] }).nodes,
      fn.id = "1" ∧ fn.input_default = [] :=
  C9_missing_schema_nonfatal
    { nodes :=
        [{ id := "1", position := (0, 0), block_id := "b", title := "t" }] }
    { id := "1", position := (0, 0), block_id := "b", title := "t" }
    (List.mem_singleton.mpr rfl) (fun b hb => by cases hb)

/-- C4 (counterexample): the claim states that with additional properties
allowed, declared keys remain the structurally recursed results after the
raw merge. For a schema allowing additional properties whose declared
object-typed property `b` has nested schema `{c}` (without additional
properties), and value `b = {c: 5, d: 7}`, the declared-property pass
recurses `b` to `{c: 5}`, but the subsequent spread of the raw value map
overwrites it with the raw `{c: 5, d: 7}` — so the declared key does *not*
keep its recursed value. -/
theorem C4_counterexample_raw_merge_overwrites_declared :
    getNestedData
      (.mk "object"
        [("b", .mk "object" [("c", .mk "number" [] false)] false)] true)
      [("b", .obj [("c", .num 5), ("d", .num 7)])] =
      [("b", .obj [("c", .num 5), ("d", .num 7)])] ∧
    Value.obj [("c", .num 5), ("d", .num 7)] ≠ Value.obj [("c", .num 5)] :=
  ⟨rfl, by simp⟩

/-- C4 (amended): the composer walks the declared properties, copying
present values verbatim or recursing on object-typed ones; when the schema
allows additional properties the entire raw value map is merged in *after*
the declared pass, so undeclared keys pass through and every key present in
the value map — declared or not — ends up with its raw (non-recursed)
value; without additional properties, declared keys carry the recursed
results and undeclared keys are dropped. The two concrete examples of the
claim hold as stated. -/
theorem C4_amended_input_composition :
    (∀ (ty : String) (props : List (String × Schema))
      (values : List (String × Value)) (k : String) (v : Value),
      (values.map Prod.fst).Nodup → (k, v) ∈ values →
      lookupS (getNestedData (.mk ty props true) values) k = some v) ∧
    (∀ (ty : String) (props : List (String × Schema))
      (values : List (String × Value)) (k : String) (ps : Schema)
      (v : Value),
      (props.map Prod.fst).Nodup → (k, ps) ∈ props →
      lookupS values k = some v →
      lookupS (getNestedData (.mk ty props false) values) k =
        some (if ps.type == "object" then .obj (getNestedData ps v.asMap)
              else v)) ∧
    (∀ (ty : String) (props : List (String × Schema))
      (values : List (String × Value)) (k : String),
      k ∉ props.map Prod.fst →
      lookupS (getNestedData (.mk ty props false) values) k = none) ∧
    (getNestedData
      (.mk "object"
        [("a", .mk "string" [] false),
         ("b", .mk "object" [("c", .mk "number" [] false)] false)] false)
      [("a", .str "x"), ("b", .obj [("c", .num 5)])] =
      [("a", .str "x"), ("b", .obj [("c", .num 5)])]) ∧
    (lookupS
        (getNestedData (.mk "object" [("a", .mk "string" [] false)] true)
          [("a", .str "x"), ("z", .num 9)]) "a" = some (.str "x") ∧
      lookupS
        (getNestedData (.mk "object" [("a", .mk "string" [] false)] true)
          [("a", .str "x"), ("z", .num 9)]) "z" = some (.num 9)) := by
  refine ⟨?_, ?_, ?_, rfl, rfl, rfl⟩
  · intro ty props values k v hnd hv
    exact lookupS_mergeVals_mem (goProps [] props values) values hnd k v hv
  · intro ty props values k ps v hnd hp hv
    exact goProps_lookup_mem props hnd k ps hp values v hv []
  · intro ty props values k hk
    exact goProps_lookup_notmem props values [] k hk

/-- C4 (witness): the raw-wins clause applied at a concrete schema that
allows additional properties and a single undeclared key. -/
theorem C4_witness :
    lookupS (getNestedData (.mk "object" [] true) [("z", .num 9)]) "z" =
      some (.num 9) :=
  C4_amended_input_composition.1 "object" [] [("z", .num 9)] "z" (.num 9)
    (by decide) (List.mem_singleton.mpr rfl)

/-- C3: after a create-save (no previously saved graph, so the skip branch
cannot fire), provided the pre-call composite keys and node identifiers are
pairwise distinct, every node whose key matches a response node's key is
present in the updated node set carrying the service-assigned identifier
(`backend_id`) and position of that response node. Key collisions are
excluded by hypothesis, as the claim permits. -/
theorem C3_id_remap (api : Payload → Graph) (st : FlowState)
    (hsa : st.savedAgent = none)
    (hkeys : (st.nodes.map nodeKey).Nodup)
    (hids : (st.nodes.map NodeM.id).Nodup)
    (n : NodeM) (hn : n ∈ st.nodes)
    (b : FormattedNode) (hb : b ∈ (api (buildPayload st)).nodes)
    (hkey : backendKey b = nodeKey n) :
    ∃ n' ∈ (saveAgent api st).1.nodes,
      n'.id = n.id ∧ n'.backend_id = some b.id ∧
        n'.position = b.position := by
  have hnodes := (saveAgent_nodes_of_noSkip api st (Or.inl hsa)).1
  rw [hnodes]
  exact ⟨{ n with position := b.position, backend_id := some b.id },
    saveRemap_mem st.nodes _ hkeys hids n hn b hb hkey, rfl, rfl, rfl⟩

/-- C3 (witness): the theorem applied to a one-node graph whose key
`"b_0_0"` is echoed by the service response under the fresh identifier
`"s1"`. -/
theorem C3_witness :
    ∃ n' ∈
      (saveAgent
        (fun p =>
          { id := "g1", name := p.name, description := p.description,
            nodes :=
              [{ id := "s1", block_id := "b", input_default := [],
                 input_nodes := [], output_nodes := [],
                 position := (0, 0) }],
            links := p.links, is_template := false })
        { nodes :=
            [{ id := "1", position := (0, 0), block_id := "b",
               title := "t" }] }).1.nodes,
      n'.id = "1" ∧ n'.backend_id = some "s1" ∧
        n'.position = ((0 : Int), (0 : Int)) :=
  C3_id_remap
    (fun p =>
      { id := "g1", name := p.name, description := p.description,
        nodes :=
          [{ id := "s1", block_id := "b", input_default := [],
             input_nodes := [], output_nodes := [], position := (0, 0) }],
        links := p.links, is_template := false })
    { nodes :=
        [{ id := "1", position := (0, 0), block_id := "b", title := "t" }] }
    rfl (List.nodup_singleton _) (List.nodup_singleton _)
    { id := "1", position := (0, 0), block_id := "b", title := "t" }
    (List.mem_singleton.mpr rfl)
    { id := "s1", block_id := "b", input_default := [], input_nodes := [],
      output_nodes := [], position := (0, 0) }
    (List.mem_singleton.mpr rfl) rfl

/-- C7: the claim states pasted edges are re-homed to the fresh identifiers
of the pasted nodes by matching display titles. The code compares each
pasted node's *title* against the original endpoint's *identifier*
(`n.data.title === edge.source`), which does not match, so the pasted edge
keeps the original endpoints `("1", "2")` instead of the fresh identifiers
`("3", "4")` of the pasted nodes. -/
theorem C7_pasted_edges_keep_old_endpoints :
    let n1 : NodeM :=
      { id := "1", position := (0, 0), block_id := "b1",
        title := "Calc 1", selected := true }
    let n2 : NodeM :=
      { id := "2", position := (50, 0), block_id := "b2",
        title := "Add 2", selected := true }
    let e : EdgeM :=
      { id := "1_a_2_b", source := "1", sourceHandle := "a",
        target := "2", targetHandle := "b", selected := true }
    let st : FlowState :=
      { nodes := [n1, n2], edges := [e], nodeId := 3,
        copiedNodes := [n1, n2], copiedEdges := [e] }
    (pasteOp "t" st).nodes.map NodeM.id = ["1", "2", "3", "4"] ∧
    (pasteOp "t" st).edges.map (fun ed => (ed.source, ed.target)) =
      [("1", "2"), ("1", "2")] ∧
    ¬ ∃ ed ∈ (pasteOp "t" st).edges, ed.source = "3" ∧ ed.target = "4" :=
  ⟨rfl, rfl, by decide⟩

/-- C10: after a non-skipped save, with pre-call composite keys and node
identifiers pairwise distinct, the updated node set consists exactly of
those prior nodes whose key matches some response node's key: a prior node
keeps (an updated copy of) itself iff some response node carries its key,
and every updated node descends from such a prior node. Prior nodes with no
matching response node are silently dropped. -/
theorem C10_save_keeps_only_matched_nodes (api : Payload → Graph)
    (st : FlowState) (hns : noSkip st)
    (hkeys : (st.nodes.map nodeKey).Nodup)
    (hids : (st.nodes.map NodeM.id).Nodup) :
    (∀ n ∈ st.nodes,
      (∃ b ∈ (api (buildPayload st)).nodes, backendKey b = nodeKey n) ↔
        ∃ n' ∈ (saveAgent api st).1.nodes, n'.id = n.id) ∧
    (∀ n' ∈ (saveAgent api st).1.nodes,
      ∃ n ∈ st.nodes, n'.id = n.id ∧
        ∃ b ∈ (api (buildPayload st)).nodes, backendKey b = nodeKey n) := by
  have hnodes := (saveAgent_nodes_of_noSkip api st hns).1
  rw [hnodes]
  constructor
  · intro n hn
    constructor
    · rintro ⟨b, hb, hkey⟩
      exact ⟨{ n with position := b.position, backend_id := some b.id },
        saveRemap_mem st.nodes _ hkeys hids n hn b hb hkey, rfl⟩
    · rintro ⟨n', hn', hid⟩
      rcases saveRemap_src st.nodes _ hids n' hn' with
        ⟨m, hm, hidm, b, hb, hkeym, _⟩
      have hmn : m = n :=
        List.inj_on_of_nodup_map hids hm hn (by rw [← hidm, hid])
      exact ⟨b, hb, hmn ▸ hkeym⟩
  · intro n' hn'
    rcases saveRemap_src st.nodes _ hids n' hn' with
      ⟨m, hm, hidm, b, hb, hkeym, _⟩
    exact ⟨m, hm, hidm, b, hb, hkeym⟩

/-- C10 (witness): a two-node graph saved against a response matching only
the first node's key: the first node survives the remap, the second is
silently dropped. -/
theorem C10_witness :
    (∃ n' ∈
      (saveAgent
        (fun p =>
          { id := "g1", name := p.name, description := p.description,
            nodes :=
              [{ id := "s1", block_id := "a", input_default := [],
                 input_nodes := [], output_nodes := [],
                 position := (0, 0) }],
            links := p.links, is_template := false })
        { nodes :=
            [{ id := "1", position := (0, 0), block_id := "a",
               title := "t1" },
             { id := "2", position := (7, 0), block_id := "a",
               title := "t2" }] }).1.nodes, n'.id = "1") ∧
    ¬ (∃ n' ∈
      (saveAgent
        (fun p =>
          { id := "g1", name := p.name, description := p.description,
            nodes :=
              [{ id := "s1", block_id := "a", input_default := [],
                 input_nodes := [], output_nodes := [],
                 position := (0, 0) }],
            links := p.links, is_template := false })
        { nodes :=
            [{ id := "1", position := (0, 0), block_id := "a",
               title := "t1" },
             { id := "2", position := (7, 0), block_id := "a",
               title := "t2" }] }).1.nodes, n'.id = "2") :=
  ⟨((C10_save_keeps_only_matched_nodes
      (fun p =>
        { id := "g1", name := p.name, description := p.description,
          nodes :=
            [{ id := "s1", block_id := "a", input_default := [],
               input_nodes := [], output_nodes := [], position := (0, 0) }],
          links := p.links, is_template := false })
      { nodes :=
          [{ id := "1", position := (0, 0), block_id := "a",
             title := "t1" },
           { id := "2", position := (7, 0), block_id := "a",
             title := "t2" }] }
      (Or.inl rfl) (by decide) (by decide)).1
      { id := "1", position := (0, 0), block_id := "a", title := "t1" }
      (List.mem_cons_self _ _)).mp
    ⟨{ id := "s1", block_id := "a", input_default := [], input_nodes := [],
       output_nodes := [], position := (0, 0) },
      List.mem_singleton.mpr rfl, rfl⟩,
   fun hex =>
    (by decide :
      ¬ ∃ b ∈
        [({ id := "s1", block_id := "a", input_default := [],
            input_nodes := [], output_nodes := [],
            position := ((0 : Int), (0 : Int)) } : FormattedNode)],
        backendKey b =
          nodeKey
            { id := "2", position := (7, 0), block_id := "a",
              title := "t2" })
      (((C10_save_keeps_only_matched_nodes
        (fun p =>
          { id := "g1", name := p.name, description := p.description,
            nodes :=
              [{ id := "s1", block_id := "a", input_default := [],
                 input_nodes := [], output_nodes := [],
                 position := (0, 0) }],
            links := p.links, is_template := false })
        { nodes :=
            [{ id := "1", position := (0, 0), block_id := "a",
               title := "t1" },
             { id := "2", position := (7, 0), block_id := "a",
               title := "t2" }] }
        (Or.inl rfl) (by decide) (by decide)).1
        { id := "2", position := (7, 0), block_id := "a", title := "t2" }
        (List.mem_cons_of_mem _ (List.mem_cons_self _ _))).mpr hex)⟩

/-- C6 (counterexample): the claim states every pasted node's identifier is
distinct from every existing node's identifier. Loading a graph does not
advance the local identifier counter, so in a state with counter `1` whose
only node carries the service-assigned identifier `"1"` (and sits in the
clipboard), pasting allocates the identifier `"1"` again: the node set ends
up with the duplicate identifiers `["1", "1"]`. -/
theorem C6_counterexample_pasted_id_collides :
    ((pasteOp "t"
        { nodes :=
            [{ id := "1", position := (0, 0), block_id := "b",
               title := "t", selected := true }],
          nodeId := 1,
          copiedNodes :=
            [{ id := "1", position := (0, 0), block_id := "b",
               title := "t", selected := true }] }).nodes.map NodeM.id =
      ["1", "1"]) ∧ ¬ (["1", "1"] : List String).Nodup :=
  ⟨rfl, by decide⟩

/-- C6 (amended): pasting a non-empty clipboard of N nodes (each selected,
as the copy operation guarantees) appends exactly N new nodes after the
deselected pre-existing ones; the pasted identifiers are the counter values
`nodeId + i` rendered in decimal, pairwise distinct, and — provided no
existing node already carries one of those counter-derived identifiers,
which loading a saved graph can violate since it does not advance the
counter — distinct from every existing identifier; each pasted node sits at
a `(+20, +20)` offset from its source with status and output data stripped,
every pre-existing node is deselected, and every pasted node remains
selected. -/
theorem C6_amended_paste (now : String) (st : FlowState)
    (hne : st.copiedNodes ≠ [])
    (hsel : ∀ c ∈ st.copiedNodes, c.selected = true)
    (hfresh : ∀ n ∈ st.nodes, ∀ i, i < st.copiedNodes.length →
      n.id ≠ Nat.repr (st.nodeId + i)) :
    (pasteOp now st).nodes =
      st.nodes.map (fun n => { n with selected := false }) ++
        pasteNewNodes st ∧
    (pasteNewNodes st).length = st.copiedNodes.length ∧
    ((pasteNewNodes st).map NodeM.id).Nodup ∧
    (∀ n ∈ st.nodes, ∀ p ∈ pasteNewNodes st, p.id ≠ n.id) ∧
    (∀ i (h : i < (pasteNewNodes st).length)
      (h2 : i < st.copiedNodes.length),
      (pasteNewNodes st).get ⟨i, h⟩ =
        { st.copiedNodes.get ⟨i, h2⟩ with
          id := Nat.repr (st.nodeId + i),
          position := ((st.copiedNodes.get ⟨i, h2⟩).position.1 + 20,
            (st.copiedNodes.get ⟨i, h2⟩).position.2 + 20),
          status := none, output_data := none }) ∧
    (∀ p ∈ pasteNewNodes st, p.selected = true) ∧
    (∀ n ∈ (pasteOp now st).nodes, n ∉ pasteNewNodes st →
      n.selected = false) := by
  have hemp : ¬(st.copiedNodes.isEmpty = true) := by
    simp [List.isEmpty_iff, hne]
  have hpaste : (pasteOp now st).nodes =
      st.nodes.map (fun n => { n with selected := false }) ++
        pasteNewNodes st := by
    unfold pasteOp
    rw [if_neg hemp]
  refine ⟨hpaste, pasteNewNodes_length st, ?_, ?_, pasteNewNodes_get st,
    ?_, ?_⟩
  · rw [pasteNewNodes_ids]
    refine List.Nodup.map ?_ (List.nodup_range _)
    intro a b hab
    have := natRepr_injective hab
    omega
  · intro n hn p hp
    rcases pasteNewNodes_mem_shape st p hp with ⟨i, c, hi, hc, rfl⟩
    intro hcontra
    exact hfresh n hn i hi hcontra.symm
  · intro p hp
    rcases pasteNewNodes_mem_shape st p hp with ⟨i, c, hi, hc, rfl⟩
    exact hsel c hc
  · intro n hn hnp
    rw [hpaste] at hn
    rcases List.mem_append.mp hn with hold | hnew
    · rcases List.mem_map.mp hold with ⟨m, hm, hval⟩
      rw [← hval]
    · exact absurd hnew hnp

/-- C6 (witness): the amended theorem applied to a state holding one node
with the non-counter identifier `"5"` and a clipboard holding one selected
node; the pasted identifier list is duplicate-free. -/
theorem C6_witness :
    ((pasteNewNodes
        { nodes :=
            [{ id := "5", position := (0, 0), block_id := "b",
               title := "t5" }],
          nodeId := 1,
          copiedNodes :=
            [{ id := "9", position := (1, 2), block_id := "b",
               title := "t9", selected := true }] }).map NodeM.id).Nodup :=
  (C6_amended_paste "t"
    { nodes :=
        [{ id := "5", position := (0, 0), block_id := "b", title := "t5" }],
      nodeId := 1,
      copiedNodes :=
        [{ id := "9", position := (1, 2), block_id := "b", title := "t9",
           selected := true }] }
    (List.cons_ne_nil _ _)
    (fun c hc => by rw [List.mem_singleton.mp hc])
    (fun n hn i hi => by
      rw [List.mem_singleton.mp hn]
      have hz : i = 0 := by
        simp only [List.length_singleton] at hi
        omega
      subst hz
      decide)).2.2.1

end Flow
